import Mathlib

/-!
Shallow embedding of the command-dispatch layer of the evcxr REPL
(`src/evcxr/src/command_context.rs`).  The dispatcher, the command registry
and the per-command effects are translated directly from that file.  The
collaborators that live outside the provided sources (the segmenter in
`code_block.rs`, the error types in `errors.rs`, the evaluation engine in
`eval_context.rs` and the crash guard in `crash_guard.rs`) are modelled from
the specification: engine entry points become explicit function parameters,
engine-held data becomes snapshot fields of the `CommandContext` model, and
machine effects (process exit, config-file I/O) become explicit outcome
constructors.
-/

set_option autoImplicit false

namespace Evcxr

/-- Modelled from the spec: `errors.rs` is not under `src/`.  A source span in
column coordinates, as built by `Span::from_command`. -/
structure Span where
  start_column : Nat
  end_column : Nat
  deriving DecidableEq, Repr

/-- Modelled from the spec: `Span::from_command(command_call, start, end)`
builds a span from the two column numbers (the command call itself only
contributes position bookkeeping that the claims never inspect). -/
def Span.from_command (_call_command : String) (start_column end_column : Nat) : Span :=
  ⟨start_column, end_column⟩

/-- Modelled from the spec: one diagnostic with message, source span, optional
machine-readable payload (`json`) and optional human-readable explanation. -/
structure CompilationError where
  message : String
  span : Option Span
  explanation : Option String
  json : String
  deriving DecidableEq, Repr

/-- Modelled from the spec: `CompilationError::from_segment_span(segment, message, span)`
builds a directive-level diagnostic carrying the given message and span. -/
def CompilationError.from_segment_span (message : String) (span : Span) : CompilationError :=
  { message := message, span := some span, explanation := none, json := "" }

/-- Source `CommandCall`: parsed directive name and optional raw argument string. -/
structure CommandCall where
  command : String
  args : Option String
  deriving DecidableEq, Repr

/-- Source `CodeKind`: a segment is either a directive (`Command`) or ordinary code.
The Rust enum has further code-like variants; the dispatcher only
distinguishes `Command` from everything else, which the two constructors
capture. -/
inductive CodeKind where
  | code
  | command (call : CommandCall)
  deriving DecidableEq, Repr

/-- A contiguous source range with its classification and raw text. -/
structure Segment where
  kind : CodeKind
  code : String
  deriving DecidableEq, Repr

/-- Source `CodeBlock`: an ordered sequence of segments. -/
structure CodeBlock where
  segments : List Segment
  deriving DecidableEq, Repr

def CodeBlock.new : CodeBlock := ⟨[]⟩

def CodeBlock.with_segment (b : CodeBlock) (s : Segment) : CodeBlock :=
  ⟨b.segments ++ [s]⟩

/-- Modelled from the spec: `ContextState` (`eval_context.rs` is not under
`src/`) is the mutable per-interaction session configuration: optimization
level, output/error formatter strings, toolchain name,
offline/debug/sccache/linker/time-passes flags, preserve-vars-on-panic flag,
and the registered build dependencies. -/
structure ContextState where
  opt_level : String
  output_format : String
  error_format : String
  error_format_trait : String
  toolchain : String
  linker : String
  debug_mode : Bool
  preserve_vars_on_panic : Bool
  offline_mode : Bool
  time_passes : Bool
  sccache : Bool
  deps : List (String × String)
  deriving DecidableEq, Repr

/-- Modelled from the spec: setters on `ContextState` record the new value.
`set_opt_level` is listed in the engine interface without further
constraints, so it is modelled as always succeeding. -/
def ContextState.set_opt_level (s : ContextState) (level : String) : ContextState :=
  { s with opt_level := level }

def ContextState.set_output_format (s : ContextState) (f : String) : ContextState :=
  { s with output_format := f }

/-- Modelled from the spec: `set_error_format` records the format string. -/
def ContextState.set_error_format (s : ContextState) (f : String) : ContextState :=
  { s with error_format := f }

def ContextState.set_toolchain (s : ContextState) (t : String) : ContextState :=
  { s with toolchain := t }

def ContextState.set_linker (s : ContextState) (l : String) : ContextState :=
  { s with linker := l }

def ContextState.set_debug_mode (s : ContextState) (b : Bool) : ContextState :=
  { s with debug_mode := b }

def ContextState.set_preserve_vars_on_panic (s : ContextState) (b : Bool) : ContextState :=
  { s with preserve_vars_on_panic := b }

def ContextState.set_offline_mode (s : ContextState) (b : Bool) : ContextState :=
  { s with offline_mode := b }

def ContextState.set_time_passes (s : ContextState) (b : Bool) : ContextState :=
  { s with time_passes := b }

/-- Modelled from the spec: `set_sccache` records the flag. -/
def ContextState.set_sccache (s : ContextState) (b : Bool) : ContextState :=
  { s with sccache := b }

/-- Modelled from the spec: `add_dep(name, requirement)` registers a build
dependency. -/
def ContextState.add_dep (s : ContextState) (name req : String) : ContextState :=
  { s with deps := s.deps ++ [(name, req)] }

/-- Source `EvalOutputs`: rendered content keyed by MIME type plus an optional
elapsed-time measurement.  The key-value store is modelled as an association
list with replace-on-collision insertion (the spec mandates last-write-wins
per key). -/
structure EvalOutputs where
  content_by_mime_type : List (String × String) := []
  timing : Option Nat := none
  deriving DecidableEq, Repr

def EvalOutputs.new : EvalOutputs := {}

/-- Modelled from the spec: inserting one MIME entry replaces an existing
value under the same key, otherwise appends. -/
def EvalOutputs.insertContent (m : List (String × String)) (kv : String × String) :
    List (String × String) :=
  if m.any (fun p => p.1 == kv.1) then
    m.map (fun p => if p.1 == kv.1 then (p.1, kv.2) else p)
  else
    m ++ [kv]

/-- Modelled from the spec: merging folds the right operand's entries into the
left one (last write wins per key); an already-present timing value is kept. -/
def EvalOutputs.merge (a b : EvalOutputs) : EvalOutputs :=
  { content_by_mime_type := b.content_by_mime_type.foldl EvalOutputs.insertContent a.content_by_mime_type,
    timing := match a.timing with | some t => some t | none => b.timing }

/-- Modelled from the spec: `EvalOutputs::text_html(text, html)` carries both
renderings. -/
def EvalOutputs.text_html (text html : String) : EvalOutputs :=
  { content_by_mime_type := [("text/plain", text), ("text/html", html)] }

/-- Source `text_output`: wraps a text result, appending a newline, under the
`text/plain` MIME type (from the free function at the bottom of
`command_context.rs`; its `Result` is always `Ok`, so the model is pure). -/
def text_output (t : String) : EvalOutputs :=
  { content_by_mime_type := [("text/plain", t ++ "\n")] }

/-- The dispatcher.  `print_timings` and `last_errors` are the fields of the
Rust struct.  The remaining fields are modelled from the spec: they are
snapshots of the data the external evaluation engine hands the dispatcher
(`eval_context.state()`, `eval_context.cleared_state()`,
`variables_and_types()`, the compiled-in version string and
`last_compile_dir()`), which `eval_context.rs` is not under `src/` to
provide. -/
structure CommandContext where
  print_timings : Bool
  last_errors : List CompilationError
  engine_state : ContextState
  cleared_state : ContextState
  vars : List (String × String)
  version : String
  last_compile_dir : String
  deriving DecidableEq, Repr

/-- Source `vars_as_text`: renders each variable as `name: type` on its own line. -/
def CommandContext.vars_as_text (ctx : CommandContext) : String :=
  ctx.vars.foldl (fun out p => out ++ p.1 ++ ": " ++ p.2 ++ "\n") ""

/-- Source `html_escape`: escapes `<` and `>`. -/
def html_escape (input : String) : String :=
  String.mk (input.toList.foldr
    (fun ch acc =>
      if ch = '<' then '&' :: 'l' :: 't' :: ';' :: acc
      else if ch = '>' then '&' :: 'g' :: 't' :: ';' :: acc
      else ch :: acc) [])

/-- Source `vars_as_html`: renders the variables as an HTML table with escaping. -/
def CommandContext.vars_as_html (ctx : CommandContext) : String :=
  (ctx.vars.foldl
    (fun out p =>
      out ++ "<tr><td>" ++ html_escape p.1 ++ "</td><td>" ++ html_escape p.2 ++ "</td><tr>")
    "<table><tr><th>Variable</th><th>Type</th></tr>") ++ "</table>"

/-- Outcome of one command callback.  `ok`/`err` mirror the Rust
`Result<EvalOutputs, Error>` and carry the (possibly mutated) dispatcher and
working state; `exitProcess` models `std::process::exit`; `external` marks an
effect outside the model (config-file I/O). -/
inductive CmdResult where
  | ok (out : EvalOutputs) (ctx : CommandContext) (state : ContextState)
  | err (msg : String) (ctx : CommandContext) (state : ContextState)
  | exitProcess (code : Nat)
  | external (tag : String)
  deriving DecidableEq, Repr

/-- The shape of a command effect: dispatcher, working state, raw argument. -/
def Callback : Type :=
  CommandContext → ContextState → Option String → CmdResult

/-- Source `AvailableCommand`: a registry entry with primary effect and optional
analysis-only effect. -/
structure AvailableCommand where
  name : String
  short_description : String
  callback : Callback
  analysis_callback : Option Callback

/-- Source `AvailableCommand::new`: no analysis variant. -/
def AvailableCommand.new (name short_description : String) (callback : Callback) :
    AvailableCommand :=
  { name := name, short_description := short_description,
    callback := callback, analysis_callback := none }

/-- Source `with_analysis_callback`. -/
def AvailableCommand.with_analysis_callback (c : AvailableCommand) (cb : Callback) :
    AvailableCommand :=
  { c with analysis_callback := some cb }

/-- Source `disable_in_analysis`: installs the no-op analysis variant returning
`Ok(EvalOutputs::default())`. -/
def AvailableCommand.disable_in_analysis (c : AvailableCommand) : AvailableCommand :=
  c.with_analysis_callback (fun ctx state _args => .ok EvalOutputs.new ctx state)

/-- Source `dep_parse`: the argument grammar of `:dep`, translated from the regex
`^([^= ]+) *(= *(.+))?$` of `process_dep_command` (with the regex crate's
semantics: `.` never matches a newline, `$` is end of text, and greedy
repetition backtracks).  The name is a maximal nonempty run of characters
other than space and `=`; spaces may follow; an optional `=` part then
supplies the requirement: the text after `=` with its leading spaces removed
(when that text is all spaces, backtracking leaves a single-space
requirement); the requirement defaults to the quoted wildcard `"*"`. -/
def dep_parse (args : String) : Option (String × String) :=
  let cs := args.toList
  let name := cs.takeWhile (fun c => ¬ (c = '=' ∨ c = ' '))
  if name.isEmpty then none
  else
    let rest := cs.drop name.length
    let rest1 := rest.dropWhile (fun c => c = ' ')
    match rest1 with
    | [] => some (String.mk name, "\"*\"")
    | '=' :: r2 =>
      let r3 := r2.dropWhile (fun c => c = ' ')
      if r3.isEmpty then
        if r2.isEmpty then none else some (String.mk name, " ")
      else if r3.contains '\n' then none
      else some (String.mk name, String.mk r3)
    | _ :: _ => none

/-- Source `process_dep_command`: fails without arguments, parses the argument with
the `:dep` grammar and registers the dependency.  (`state.add_dep` is
engine-side; modelled as always succeeding.) -/
def process_dep_command (state : ContextState) (args : Option String) :
    Except String (EvalOutputs × ContextState) :=
  match args with
  | none => .error ":dep requires arguments"
  | some v =>
    match dep_parse v with
    | some (name, req) => .ok (EvalOutputs.new, state.add_dep name req)
    | none => .error "Invalid :dep command. Expected: name = ... or just name"

/-- The explanation-collection loop of `:explain`: walks the retained errors
in order, concatenating explanations, failing at the first error that lacks
one. -/
def collectExplanations : List CompilationError → Except String String
  | [] => .ok ""
  | e :: rest =>
    match e.explanation with
    | some ex =>
      match collectExplanations rest with
      | .ok r => .ok (ex ++ r)
      | .error m => .error m
    | none => .error "Sorry, last error has no explanation"

/-- Source `:internal_debug`: toggles the debug flag and reports it. -/
def internal_debug_callback : Callback := fun ctx state _args =>
  let debug_mode := !state.debug_mode
  .ok (text_output ("Internals debugging: " ++ toString debug_mode)) ctx
    (state.set_debug_mode debug_mode)

/-- Source `:load_config` (real mode): replays the startup configuration files.
Modelled from the spec: the replay performs file I/O through the engine, an
effect outside this model, so it is represented as an external effect. -/
def load_config_callback : Callback := fun _ctx _state _args =>
  .external "load_config"

/-- Source `:version`: reports the compiled-in version string (an environment
constant, held as a snapshot field of the model). -/
def version_callback : Callback := fun ctx state _args =>
  .ok (text_output ctx.version) ctx state

/-- Source `:vars`: text and HTML renderings of the bound variables. -/
def vars_callback : Callback := fun ctx state _args =>
  .ok (EvalOutputs.text_html ctx.vars_as_text ctx.vars_as_html) ctx state

/-- Source `:preserve_vars_on_panic`: sets the flag from the argument `"1"`. -/
def preserve_vars_callback : Callback := fun ctx state args =>
  let state' := state.set_preserve_vars_on_panic (args == some "1")
  .ok (text_output ("Preserve vars on panic: " ++ toString state'.preserve_vars_on_panic))
    ctx state'

/-- Source `:clear` (real mode): invokes the engine's reset.  Modelled from the
spec: the engine's `clear()` succeeds and its post-clear committed state is
the cleared-state snapshot. -/
def clear_callback : Callback := fun ctx _state _args =>
  .ok EvalOutputs.new ctx ctx.cleared_state

/-- Source `:clear` (analysis variant): substitutes the engine's distinct cleared
state without invoking the real reset. -/
def clear_analysis_callback : Callback := fun ctx _state _args =>
  .ok EvalOutputs.new ctx ctx.cleared_state

/-- Source `:dep`: delegates to `process_dep_command`. -/
def dep_callback : Callback := fun ctx state args =>
  match process_dep_command state args with
  | .ok (out, state') => .ok out ctx state'
  | .error m => .err m ctx state

/-- Source `:last_compile_dir`: reports the engine's last compile directory
(snapshot field; the debug rendering is the snapshot string itself). -/
def last_compile_dir_callback : Callback := fun ctx state _args =>
  .ok (text_output ctx.last_compile_dir) ctx state

/-- Source `:opt`: explicit level, else toggle between `"0"` and `"2"`. -/
def opt_callback : Callback := fun ctx state args =>
  let new_level :=
    match args with
    | some n => n
    | none => if state.opt_level = "2" then "0" else "2"
  let state' := state.set_opt_level new_level
  .ok (text_output ("Optimization: " ++ state'.opt_level)) ctx state'

/-- Source `:fmt`: sets the output format, defaulting to the debug-format token. -/
def fmt_callback : Callback := fun ctx state args =>
  let new_format :=
    match args with
    | some f => f
    | none => "\x7b:?\x7d"
  let state' := state.set_output_format new_format
  .ok (text_output ("Output format: " ++ state'.output_format)) ctx state'

/-- Source `:efmt`: optionally sets the error format, reports it with the required
trait. -/
def efmt_callback : Callback := fun ctx state args =>
  let state' :=
    match args with
    | some f => state.set_error_format f
    | none => state
  .ok (text_output ("Error format: " ++ state'.error_format ++ " (errors must implement "
        ++ state'.error_format_trait ++ ")")) ctx state'

/-- Source `:toolchain`: optionally sets the toolchain, reports it. -/
def toolchain_callback : Callback := fun ctx state args =>
  let state' :=
    match args with
    | some a => state.set_toolchain a
    | none => state
  .ok (text_output ("Toolchain: " ++ state'.toolchain)) ctx state'

/-- Source `:offline`: sets offline mode from the argument `"1"`. -/
def offline_callback : Callback := fun ctx state args =>
  let state' := state.set_offline_mode (args == some "1")
  .ok (text_output ("Offline mode: " ++ toString state'.offline_mode)) ctx state'

/-- Source `:quit` (real mode): `std::process::exit(0)`. -/
def quit_callback : Callback := fun _ctx _state _args =>
  .exitProcess 0

/-- Source `:timing`: toggles the dispatcher's timing display. -/
def timing_callback : Callback := fun ctx state _args =>
  let ctx' := { ctx with print_timings := !ctx.print_timings }
  .ok (text_output ("Timing: " ++ toString ctx'.print_timings)) ctx' state

/-- Source `:time_passes`: toggles the pass-timing flag. -/
def time_passes_callback : Callback := fun ctx state _args =>
  let state' := state.set_time_passes (!state.time_passes)
  .ok (text_output ("Time passes: " ++ toString state'.time_passes)) ctx state'

/-- Source `:sccache`: enables sccache unless the argument is `"0"`. -/
def sccache_callback : Callback := fun ctx state args =>
  let state' := state.set_sccache (!(args == some "0"))
  .ok (text_output ("sccache: " ++ toString state'.sccache)) ctx state'

/-- Source `:linker`: optionally sets the linker, reports it. -/
def linker_callback : Callback := fun ctx state args =>
  let state' :=
    match args with
    | some l => state.set_linker l
    | none => state
  .ok (text_output ("linker: " ++ state'.linker)) ctx state'

/-- Source `:explain`: fails with no retained errors, fails at a retained error
without an explanation, otherwise concatenates every explanation. -/
def explain_callback : Callback := fun ctx state _args =>
  if ctx.last_errors.isEmpty then
    .err "No last error to explain" ctx state
  else
    match collectExplanations ctx.last_errors with
    | .ok all_explanations => .ok (text_output all_explanations) ctx state
    | .error m => .err m ctx state

/-- Source `:last_error_json`: always fails, with each retained error's raw payload
followed by a newline as the message. -/
def last_error_json_callback : Callback := fun ctx state _args =>
  .err (ctx.last_errors.foldl (fun acc e => acc ++ e.json ++ "\n") "") ctx state

/-- The catalog of names and one-line descriptions, in creation order (used
by `:help`, which in the source re-creates the command list; the model keeps
the catalog as a prior definition to avoid self-reference). -/
def command_catalog : List (String × String) :=
  [(":internal_debug", "Toggle various internal debugging code"),
   (":load_config", "Reloads startup configuration files"),
   (":version", "Print Evcxr version"),
   (":vars", "List bound variables and their types"),
   (":preserve_vars_on_panic", "Try to keep vars on panic (0/1)"),
   (":clear", "Clear all state, keeping compilation cache"),
   (":dep", "Add dependency. e.g. :dep regex = \"1.0\""),
   (":last_compile_dir", "Print the directory in which we last compiled"),
   (":opt", "Set optimization level (0/1/2)"),
   (":fmt", "Set output formatter (default: \x7b:?\x7d)"),
   (":efmt", "Set the formatter for errors returned by ?"),
   (":toolchain", "Set which toolchain to use (e.g. nightly)"),
   (":offline", "Set offline mode when invoking cargo"),
   (":quit", "Quit evaluation and exit"),
   (":timing", "Toggle printing of how long evaluations take"),
   (":time_passes", "Toggle printing of rustc pass times (requires nightly)"),
   (":sccache", "Set whether to use sccache (0/1)."),
   (":linker", "Set/print linker. Supported: system, lld"),
   (":explain", "Print explanation of last error"),
   (":last_error_json", "Print the last compilation error as JSON (for debugging)"),
   (":help", "Print command help")]

/-- Insertion of one catalog entry into a name-sorted list. -/
def insertByName (p : String × String) : List (String × String) → List (String × String)
  | [] => [p]
  | q :: rest => if p.1 < q.1 then p :: q :: rest else q :: insertByName p rest

/-- Source `sort_by(name)` over the catalog. -/
def sortByName : List (String × String) → List (String × String)
  | [] => []
  | p :: rest => insertByName p (sortByName rest)

/-- The `\x7b:<17\x7d` padding of the help text. -/
def padName (n : String) : String :=
  n ++ String.mk (List.replicate (17 - n.length) ' ')

/-- Source `:help`: enumerates the catalog sorted by name, in text and HTML form. -/
def help_callback : Callback := fun ctx state _args =>
  let sorted := sortByName command_catalog
  let text := sorted.foldl (fun acc p => acc ++ padName p.1 ++ " " ++ p.2 ++ "\n") ""
  let html := (sorted.foldl
      (fun acc p => acc ++ "<tr><td>" ++ p.1 ++ "</td><td>" ++ p.2 ++ "</td></tr>\n")
      "<table>\n") ++ "</table>\n"
  .ok (EvalOutputs.text_html text html) ctx state

/-- Source `create_commands`: the registry contents, in source order. -/
def create_commands : List AvailableCommand :=
  [AvailableCommand.new ":internal_debug" "Toggle various internal debugging code"
     internal_debug_callback,
   (AvailableCommand.new ":load_config" "Reloads startup configuration files"
     load_config_callback).disable_in_analysis,
   AvailableCommand.new ":version" "Print Evcxr version" version_callback,
   AvailableCommand.new ":vars" "List bound variables and their types" vars_callback,
   AvailableCommand.new ":preserve_vars_on_panic" "Try to keep vars on panic (0/1)"
     preserve_vars_callback,
   (AvailableCommand.new ":clear" "Clear all state, keeping compilation cache"
     clear_callback).with_analysis_callback clear_analysis_callback,
   AvailableCommand.new ":dep" "Add dependency. e.g. :dep regex = \"1.0\"" dep_callback,
   AvailableCommand.new ":last_compile_dir" "Print the directory in which we last compiled"
     last_compile_dir_callback,
   AvailableCommand.new ":opt" "Set optimization level (0/1/2)" opt_callback,
   AvailableCommand.new ":fmt" "Set output formatter (default: \x7b:?\x7d)" fmt_callback,
   AvailableCommand.new ":efmt" "Set the formatter for errors returned by ?" efmt_callback,
   AvailableCommand.new ":toolchain" "Set which toolchain to use (e.g. nightly)"
     toolchain_callback,
   AvailableCommand.new ":offline" "Set offline mode when invoking cargo" offline_callback,
   (AvailableCommand.new ":quit" "Quit evaluation and exit" quit_callback).disable_in_analysis,
   AvailableCommand.new ":timing" "Toggle printing of how long evaluations take"
     timing_callback,
   AvailableCommand.new ":time_passes" "Toggle printing of rustc pass times (requires nightly)"
     time_passes_callback,
   AvailableCommand.new ":sccache" "Set whether to use sccache (0/1)." sccache_callback,
   AvailableCommand.new ":linker" "Set/print linker. Supported: system, lld" linker_callback,
   AvailableCommand.new ":explain" "Print explanation of last error" explain_callback,
   AvailableCommand.new ":last_error_json" "Print the last compilation error as JSON (for debugging)"
     last_error_json_callback,
   AvailableCommand.new ":help" "Print command help" help_callback]

/-- Source `commands_by_name`: the once-built map is modelled as lookup by exact
name over the creation list (names are unique, so `find?` agrees with the
`HashMap`). -/
def commands_by_name (name : String) : Option AvailableCommand :=
  create_commands.find? (fun c => c.name == name)

/-- The stateful `find` of `process_command`'s error-span computation: scans
the characters with a `found_space` flag; a space sets the flag; the first
character examined with the flag set is returned (as its 0-based index plus
one, i.e. a 1-based column). -/
def argStartAux : List Char → Bool → Nat → Option Nat
  | [], _, _ => none
  | c :: rest, found_space, i =>
    if c = ' ' then argStartAux rest true (i + 1)
    else if found_space then some (i + 1)
    else argStartAux rest found_space (i + 1)

/-- Source `start_column`: the 1-based column of the first non-space character
following a space, defaulting to 1 (`unwrap_or(1)`). -/
def start_column (code : String) : Nat :=
  (argStartAux code.toList false 0).getD 1

/-- Source `end_column`: `segment.code.chars().count()` — counted in characters. -/
def end_column (code : String) : Nat :=
  code.toList.length

/-- The diagnostic built for an unrecognised directive name. -/
def unrecognised_error (call : CommandCall) : CompilationError :=
  CompilationError.from_segment_span
    ("Unrecognised command " ++ call.command)
    (Span.from_command call.command 1 (call.command.toList.length + 1))

/-- The diagnostic a known directive's returned error is wrapped into, with
the argument span of `process_command`. -/
def wrapped_error (call : CommandCall) (segment : Segment) (msg : String) : CompilationError :=
  CompilationError.from_segment_span msg
    (Span.from_command call.command (start_column segment.code) (end_column segment.code))

/-- Outcome of `process_command`: `Result<EvalOutputs, CompilationError>`
with the mutated dispatcher and state, extended with the two unmodelled
machine effects. -/
inductive ProcResult where
  | ok (out : EvalOutputs) (ctx : CommandContext) (state : ContextState)
  | error (e : CompilationError) (ctx : CommandContext) (state : ContextState)
  | exited (code : Nat)
  | external (tag : String)
  deriving DecidableEq, Repr

/-- Source `process_command`: looks the directive name up in the registry; unknown
names produce the `Unrecognised command` diagnostic spanning the command
token; a known command runs its analysis variant when in analysis mode and it
has one, otherwise its primary effect, and wraps a returned error with the
argument span. -/
def process_command (ctx : CommandContext) (command_call : CommandCall) (segment : Segment)
    (state : ContextState) (args : Option String) (analysis_mode : Bool) : ProcResult :=
  match commands_by_name command_call.command with
  | some command =>
    let result :=
      match command.analysis_callback, analysis_mode with
      | some analysis_callback, true => analysis_callback ctx state args
      | _, _ => command.callback ctx state args
    match result with
    | .ok out ctx' state' => .ok out ctx' state'
    | .err msg ctx' state' => .error (wrapped_error command_call segment msg) ctx' state'
    | .exitProcess c => .exited c
    | .external t => .external t
  | none => .error (unrecognised_error command_call) ctx state

/-- The error side of the dispatcher's `Result`: engine compilation
diagnostics or any other error. -/
inductive ExecError where
  | compilationErrors (errors : List CompilationError)
  | message (msg : String)
  deriving DecidableEq, Repr

/-- Result of one real-mode interaction, carrying the dispatcher so its
retained errors are observable. -/
inductive ExecResult where
  | ok (out : EvalOutputs) (ctx : CommandContext)
  | error (e : ExecError) (ctx : CommandContext)
  | exited (code : Nat)
  | external (tag : String)
  deriving DecidableEq, Repr

/-- Intermediate result of the real-mode segment loop. -/
inductive LoopResult where
  | done (ctx : CommandContext) (state : ContextState) (outs : EvalOutputs) (ncc : CodeBlock)
  | error (e : CompilationError) (ctx : CommandContext)
  | exited (code : Nat)
  | external (tag : String)
  deriving DecidableEq, Repr

/-- The real-mode segment loop of `execute_with_callbacks_internal`: commands
run immediately through `execute_command` (whose single error aborts the
loop), code segments accumulate. -/
def commandLoop (ctx : CommandContext) (state : ContextState) (outs : EvalOutputs)
    (ncc : CodeBlock) : List Segment → LoopResult
  | [] => .done ctx state outs ncc
  | segment :: rest =>
    match segment.kind with
    | .command call =>
      match process_command ctx call segment state call.args false with
      | .ok out ctx' state' => commandLoop ctx' state' (outs.merge out) ncc rest
      | .error e ctx' _ => .error e ctx'
      | .exited c => .exited c
      | .external t => .external t
    | .code => commandLoop ctx state outs (ncc.with_segment segment) rest

/-- The engine's compiling entry point (`eval_with_callbacks`), an external
collaborator: accumulated code, working state and AST node list in, outputs
or an error out. -/
def EvalFn : Type :=
  CodeBlock → ContextState → List String → Except ExecError EvalOutputs

/-- Source `execute_with_callbacks_internal`: fetches a fresh working state, runs the
segment loop, hands the accumulated code to the engine, merges outputs,
attaches the elapsed time when timing display is on, and on an engine
compilation failure replaces the retained error set wholesale.  The engine
call and the elapsed duration are parameters (the engine lives outside
`src/`; real time is not modelled). -/
def execute_with_callbacks_internal (evalFn : EvalFn) (duration : Nat) (nodes : List String)
    (ctx : CommandContext) (segments : List Segment) : ExecResult :=
  match commandLoop ctx ctx.engine_state EvalOutputs.new CodeBlock.new segments with
  | .error e ctx' => .error (.compilationErrors [e]) ctx'
  | .exited c => .exited c
  | .external t => .external t
  | .done ctx' state' outs ncc =>
    match evalFn ncc state' nodes with
    | .ok m =>
      let merged := outs.merge m
      let merged :=
        if ctx'.print_timings then { merged with timing := some duration } else merged
      .ok merged ctx'
    | .error (.compilationErrors errors) =>
      .error (.compilationErrors errors) { ctx' with last_errors := errors }
    | .error (.message m) => .error (.message m) ctx'

/-- How the guarded region of one top-level execution ended: a normal return
(success or handled error) or an abnormal termination of the region. -/
inductive RunOutcome where
  | normal (r : ExecResult)
  | panicked
  deriving DecidableEq, Repr

/-- Modelled from the spec: `crash_guard.rs` is not under `src/`.  The guard
is armed on construction, may be disarmed, and on drop emits its diagnostic
exactly when still armed. -/
structure CrashGuard where
  armed : Bool
  deriving DecidableEq, Repr

def CrashGuard.mk_armed : CrashGuard := ⟨true⟩

def CrashGuard.disarm (_g : CrashGuard) : CrashGuard := ⟨false⟩

/-- Whether dropping the guard runs its diagnostic closure. -/
def CrashGuard.emits_on_drop (g : CrashGuard) : Bool := g.armed

/-- The diagnostic template of `execute_with_callbacks`: verbatim source text
plus a rendering of the working state. -/
def crash_template (to_run state_repr : String) : String :=
  "\n" ++ String.mk (List.replicate 77 '=') ++ "\n"
    ++ "Panic detected. Here's some useful information if you're filing a bug report.\n"
    ++ "<CODE>\n" ++ to_run ++ "\n</CODE>\n<STATE>\n" ++ state_repr ++ "\n</STATE>"

/-- Result of one guarded top-level execution: the diagnostic emitted by the
guard (if any) and the propagated outcome. -/
structure GuardedRun where
  emitted_diagnostic : Option String
  outcome : RunOutcome
  deriving DecidableEq, Repr

/-- Source `execute_with_callbacks`: arms a crash guard around the internal
execution; on a normal return the guard is disarmed before returning, so
dropping it emits nothing; an abnormal termination drops the armed guard,
emitting the template, before the termination propagates. -/
def execute_with_callbacks (to_run state_repr : String) (internal_outcome : RunOutcome) :
    GuardedRun :=
  let guard := CrashGuard.mk_armed
  match internal_outcome with
  | .normal r =>
    let guard := guard.disarm
    { emitted_diagnostic :=
        if guard.emits_on_drop then some (crash_template to_run state_repr) else none,
      outcome := .normal r }
  | .panicked =>
    { emitted_diagnostic :=
        if guard.emits_on_drop then some (crash_template to_run state_repr) else none,
      outcome := .panicked }

/-- Intermediate result of the analysis-mode segment loop. -/
inductive AnalysisLoopResult where
  | done (ctx : CommandContext) (state : ContextState) (errors : List CompilationError)
      (ncc : CodeBlock)
  | exited (code : Nat)
  | external (tag : String)
  deriving DecidableEq, Repr

/-- The analysis-mode segment loop of `prepare_for_analysis`: every directive
is attempted with its analysis variant; a directive error is pushed onto the
collected list and the loop continues; successful directive outputs are
discarded; code segments accumulate. -/
def analysisLoop (ctx : CommandContext) (state : ContextState)
    (errors : List CompilationError) (ncc : CodeBlock) : List Segment → AnalysisLoopResult
  | [] => .done ctx state errors ncc
  | segment :: rest =>
    match segment.kind with
    | .command call =>
      match process_command ctx call segment state call.args true with
      | .ok _ ctx' state' => analysisLoop ctx' state' errors ncc rest
      | .error e ctx' state' => analysisLoop ctx' state' (errors ++ [e]) ncc rest
      | .exited c => .exited c
      | .external t => .external t
    | .code => analysisLoop ctx state errors (ncc.with_segment segment) rest

/-- The engine's `write_cargo_toml` entry point, an external collaborator. -/
def WriteCargoToml : Type :=
  ContextState → Except ExecError Unit

/-- Result of `prepare_for_analysis`. -/
inductive AnalysisResult where
  | ok (ncc : CodeBlock) (state : ContextState) (errors : List CompilationError)
      (ctx : CommandContext)
  | error (e : ExecError)
  | exited (code : Nat)
  | external (tag : String)
  deriving DecidableEq, Repr

/-- Source `prepare_for_analysis`: fetches a fresh working state, runs the analysis
loop collecting directive errors, writes the cargo manifest, and returns the
accumulated code, mutated state and collected errors. -/
def prepare_for_analysis (wct : WriteCargoToml) (ctx : CommandContext)
    (segments : List Segment) : AnalysisResult :=
  match analysisLoop ctx ctx.engine_state [] CodeBlock.new segments with
  | .done ctx' state' errors ncc =>
    match wct state' with
    | .ok _ => .ok ncc state' errors ctx'
    | .error e => .error e
  | .exited c => .exited c
  | .external t => .external t

/-- The engine's check-only entry point, an external collaborator. -/
def CheckFn : Type :=
  CodeBlock → ContextState → List String → Except ExecError (List CompilationError)

/-- Result of the `check` operation. -/
inductive CheckResult where
  | ok (errors : List CompilationError)
  | error (e : ExecError)
  | exited (code : Nat)
  | external (tag : String)
  deriving DecidableEq, Repr

/-- Source `check`: prepares for analysis; when the preparation collected directive
errors they are returned directly (the engine's check entry point is not
invoked, to avoid follow-on diagnostics); otherwise the accumulated code,
mutated state and node list go to the engine's check.  Segmentation
(`from_original_user_code`) is the external segmenter, so the model takes the
segments and node list directly. -/
def check (wct : WriteCargoToml) (checkFn : CheckFn) (nodes : List String)
    (ctx : CommandContext) (segments : List Segment) : CheckResult :=
  match prepare_for_analysis wct ctx segments with
  | .ok ncc state errors _ctx' =>
    if errors.isEmpty then
      match checkFn ncc state nodes with
      | .ok engine_errors => .ok engine_errors
      | .error e => .error e
    else .ok errors
  | .error e => .error e
  | .exited c => .exited c
  | .external t => .external t

/-- Removal of leading and trailing spaces, for the specification-side
`:dep` grammar. -/
def trimSpaces (l : List Char) : List Char :=
  ((l.dropWhile (fun c => c = ' ')).reverse.dropWhile (fun c => c = ' ')).reverse

/-- The `:dep` argument grammar exactly as the specification words it (for
comparison with `dep_parse`, which is translated from the source): split at
the first `=`, trim both sides, default the requirement to the quoted
wildcard when no `=` is present, fail on an empty name. -/
def dep_parse_spec (args : String) : Option (String × String) :=
  let cs := args.toList
  if cs.contains '=' then
    let left := cs.takeWhile (fun c => ¬ c = '=')
    let right := cs.drop (left.length + 1)
    let name := trimSpaces left
    if name.isEmpty then none
    else some (String.mk name, String.mk (trimSpaces right))
  else
    let name := trimSpaces cs
    if name.isEmpty then none else some (String.mk name, "\"*\"")

/-- A concrete session configuration used by the evaluation witnesses. -/
def sample_state : ContextState :=
  { opt_level := "2", output_format := "", error_format := "", error_format_trait := "",
    toolchain := "", linker := "", debug_mode := false, preserve_vars_on_panic := false,
    offline_mode := false, time_passes := false, sccache := false, deps := [] }

/-- A concrete dispatcher used by the evaluation witnesses. -/
def sample_context : CommandContext :=
  { print_timings := false, last_errors := [], engine_state := sample_state,
    cleared_state := sample_state, vars := [], version := "0.0.0", last_compile_dir := "dir" }

/-- A retained diagnostic with an explanation, for witnesses. -/
def sample_error_explained : CompilationError :=
  { message := "mismatched types", span := none, explanation := some "E0308", json := "j1" }

/-- A retained diagnostic without an explanation, for witnesses. -/
def sample_error_bare : CompilationError :=
  { message := "syntax error", span := none, explanation := none, json := "j2" }

/-- A command callback either preserves the dispatcher's retained error set
or performs an unmodelled machine effect.  (No registered effect writes
`last_errors`; only the engine-failure path of the dispatcher does.) -/
def preserves_last_errors (cb : Callback) : Prop :=
  ∀ ctx state args,
    match cb ctx state args with
    | .ok _ ctx' _ => ctx'.last_errors = ctx.last_errors
    | .err _ ctx' _ => ctx'.last_errors = ctx.last_errors
    | _ => True

theorem internal_debug_preserves : preserves_last_errors internal_debug_callback := by
  intro ctx state args
  simp [internal_debug_callback, preserves_last_errors]

theorem load_config_preserves : preserves_last_errors load_config_callback := by
  intro ctx state args
  simp [load_config_callback, preserves_last_errors]

theorem version_preserves : preserves_last_errors version_callback := by
  intro ctx state args
  simp [version_callback, preserves_last_errors]

theorem vars_preserves : preserves_last_errors vars_callback := by
  intro ctx state args
  simp [vars_callback, preserves_last_errors]

theorem preserve_vars_preserves : preserves_last_errors preserve_vars_callback := by
  intro ctx state args
  simp [preserve_vars_callback, preserves_last_errors]

theorem clear_preserves : preserves_last_errors clear_callback := by
  intro ctx state args
  simp [clear_callback, preserves_last_errors]

theorem dep_preserves : preserves_last_errors dep_callback := by
  intro ctx state args
  cases h : process_dep_command state args with
  | ok v =>
    obtain ⟨o, s⟩ := v
    simp only [preserves_last_errors, dep_callback, h]
  | error m =>
    simp only [preserves_last_errors, dep_callback, h]

theorem last_compile_dir_preserves : preserves_last_errors last_compile_dir_callback := by
  intro ctx state args
  simp [last_compile_dir_callback, preserves_last_errors]

theorem opt_preserves : preserves_last_errors opt_callback := by
  intro ctx state args
  cases args <;> simp [opt_callback, preserves_last_errors]

theorem fmt_preserves : preserves_last_errors fmt_callback := by
  intro ctx state args
  cases args <;> simp [fmt_callback, preserves_last_errors]

theorem efmt_preserves : preserves_last_errors efmt_callback := by
  intro ctx state args
  cases args <;> simp [efmt_callback, preserves_last_errors]

theorem toolchain_preserves : preserves_last_errors toolchain_callback := by
  intro ctx state args
  cases args <;> simp [toolchain_callback, preserves_last_errors]

theorem offline_preserves : preserves_last_errors offline_callback := by
  intro ctx state args
  simp [offline_callback, preserves_last_errors]

theorem quit_preserves : preserves_last_errors quit_callback := by
  intro ctx state args
  simp [quit_callback, preserves_last_errors]

theorem timing_preserves : preserves_last_errors timing_callback := by
  intro ctx state args
  simp [timing_callback, preserves_last_errors]

theorem time_passes_preserves : preserves_last_errors time_passes_callback := by
  intro ctx state args
  simp [time_passes_callback, preserves_last_errors]

theorem sccache_preserves : preserves_last_errors sccache_callback := by
  intro ctx state args
  simp [sccache_callback, preserves_last_errors]

theorem linker_preserves : preserves_last_errors linker_callback := by
  intro ctx state args
  cases args <;> simp [linker_callback, preserves_last_errors]

theorem explain_preserves : preserves_last_errors explain_callback := by
  intro ctx state args
  by_cases h : ctx.last_errors.isEmpty
  · simp [explain_callback, h]
  · rcases hc : collectExplanations ctx.last_errors with a | m <;>
      simp [explain_callback, h, hc]

theorem last_error_json_preserves : preserves_last_errors last_error_json_callback := by
  intro ctx state args
  simp [last_error_json_callback, preserves_last_errors]

theorem help_preserves : preserves_last_errors help_callback := by
  intro ctx state args
  simp [help_callback, preserves_last_errors]

theorem create_commands_preserve :
    ∀ c ∈ create_commands, preserves_last_errors c.callback := by
  intro c hc
  simp only [create_commands, List.mem_cons, List.not_mem_nil, or_false] at hc
  rcases hc with rfl | rfl | rfl | rfl | rfl | rfl | rfl | rfl | rfl | rfl | rfl | rfl | rfl |
    rfl | rfl | rfl | rfl | rfl | rfl | rfl | rfl
  · exact internal_debug_preserves
  · exact load_config_preserves
  · exact version_preserves
  · exact vars_preserves
  · exact preserve_vars_preserves
  · exact clear_preserves
  · exact dep_preserves
  · exact last_compile_dir_preserves
  · exact opt_preserves
  · exact fmt_preserves
  · exact efmt_preserves
  · exact toolchain_preserves
  · exact offline_preserves
  · exact quit_preserves
  · exact timing_preserves
  · exact time_passes_preserves
  · exact sccache_preserves
  · exact linker_preserves
  · exact explain_preserves
  · exact last_error_json_preserves
  · exact help_preserves

/-- In real mode, `process_command` leaves the retained error set of the
dispatcher it returns unchanged. -/
theorem process_command_preserves (ctx : CommandContext) (call : CommandCall) (seg : Segment)
    (state : ContextState) (args : Option String) :
    (∀ out ctx' state', process_command ctx call seg state args false = .ok out ctx' state' →
      ctx'.last_errors = ctx.last_errors) ∧
    (∀ e ctx' state', process_command ctx call seg state args false = .error e ctx' state' →
      ctx'.last_errors = ctx.last_errors) := by
  rcases hcmd : commands_by_name call.command with _ | cmd
  · constructor <;> intro a b c h <;> simp [process_command, hcmd] at h
    · obtain ⟨-, h2, -⟩ := h
      rw [h2]
  · have hmem : cmd ∈ create_commands := List.mem_of_find?_eq_some hcmd
    have hpres := create_commands_preserve cmd hmem ctx state args
    rcases hA : cmd.analysis_callback with _ | acb <;>
      simp only [preserves_last_errors] at hpres <;>
      cases hr : cmd.callback ctx state args with
    | ok o cx st =>
      rw [hr] at hpres
      have key : process_command ctx call seg state args false = .ok o cx st := by
        simp [process_command, hcmd, hA, hr]
      constructor <;> intro a b c h <;> rw [key] at h <;> simp at h
      obtain ⟨-, h2, -⟩ := h
      rw [← h2]
      exact hpres
    | err m cx st =>
      rw [hr] at hpres
      have key : process_command ctx call seg state args false =
          .error (wrapped_error call seg m) cx st := by
        simp [process_command, hcmd, hA, hr]
      constructor <;> intro a b c h <;> rw [key] at h <;> simp at h
      obtain ⟨-, h2, -⟩ := h
      rw [← h2]
      exact hpres
    | exitProcess code =>
      have key : process_command ctx call seg state args false = .exited code := by
        simp [process_command, hcmd, hA, hr]
      constructor <;> intro a b c h <;> rw [key] at h <;> simp at h
    | external t =>
      have key : process_command ctx call seg state args false = .external t := by
        simp [process_command, hcmd, hA, hr]
      constructor <;> intro a b c h <;> rw [key] at h <;> simp at h

/-- The real-mode segment loop leaves the retained error set unchanged: no
registered effect writes it. -/
theorem commandLoop_preserves (segments : List Segment) :
    ∀ ctx state outs ncc,
      (∀ ctx' state' outs' ncc',
        commandLoop ctx state outs ncc segments = .done ctx' state' outs' ncc' →
        ctx'.last_errors = ctx.last_errors) ∧
      (∀ e ctx',
        commandLoop ctx state outs ncc segments = .error e ctx' →
        ctx'.last_errors = ctx.last_errors) := by
  induction segments with
  | nil =>
    intro ctx state outs ncc
    refine ⟨?_, ?_⟩
    · intro a b c d h
      simp [commandLoop] at h
      obtain ⟨h1, -, -, -⟩ := h
      rw [h1]
    · intro e ctx' h
      simp [commandLoop] at h
  | cons seg rest ih =>
    intro ctx state outs ncc
    rcases hk : seg.kind with _ | call
    · refine ⟨?_, ?_⟩
      · intro a b c d h
        simp only [commandLoop, hk] at h
        exact (ih ctx state outs (ncc.with_segment seg)).1 a b c d h
      · intro e ctx' h
        simp only [commandLoop, hk] at h
        exact (ih ctx state outs (ncc.with_segment seg)).2 e ctx' h
    · have hpc := process_command_preserves ctx call seg state call.args
      refine ⟨?_, ?_⟩
      · intro a b c d h
        cases hp : process_command ctx call seg state call.args false with
        | ok o cx st =>
          simp only [commandLoop, hk, hp] at h
          have h1 := (ih cx st (outs.merge o) ncc).1 a b c d h
          rw [h1, hpc.1 o cx st hp]
        | error e2 cx st => simp only [commandLoop, hk, hp] at h; simp at h
        | exited code => simp only [commandLoop, hk, hp] at h; simp at h
        | external t => simp only [commandLoop, hk, hp] at h; simp at h
      · intro e ctx' h
        cases hp : process_command ctx call seg state call.args false with
        | ok o cx st =>
          simp only [commandLoop, hk, hp] at h
          have h1 := (ih cx st (outs.merge o) ncc).2 e ctx' h
          rw [h1, hpc.1 o cx st hp]
        | error e2 cx st =>
          simp only [commandLoop, hk, hp] at h
          simp at h
          obtain ⟨-, h2⟩ := h
          rw [← h2, hpc.2 e2 cx st hp]
        | exited code => simp only [commandLoop, hk, hp] at h; simp at h
        | external t => simp only [commandLoop, hk, hp] at h; simp at h

/-- A directive error aborts the whole real-mode interaction: whatever the
engine would do, the result is that single error wrapped as the
`CompilationErrors` variant, and the engine is never consulted. -/
theorem commandLoop_error_internal (evalFn : EvalFn) (duration : Nat) (nodes : List String)
    (ctx : CommandContext) (segments : List Segment) (e : CompilationError)
    (ctx' : CommandContext)
    (h : commandLoop ctx ctx.engine_state EvalOutputs.new CodeBlock.new segments =
      .error e ctx') :
    execute_with_callbacks_internal evalFn duration nodes ctx segments =
      .error (.compilationErrors [e]) ctx' := by
  unfold execute_with_callbacks_internal
  rw [h]

/-- The scan never finds an argument start in space-free text. -/
theorem argStartAux_no_space (l : List Char) (h : ∀ c ∈ l, ¬ c = ' ') :
    ∀ i, argStartAux l false i = none := by
  induction l with
  | nil => intro i; rfl
  | cons c rest ih =>
    intro i
    have hc := h c (List.mem_cons_self c rest)
    rw [argStartAux, if_neg hc, if_neg (by simp)]
    exact ih (fun x hx => h x (List.mem_cons_of_mem c hx)) (i + 1)

/-- Scanning space-free text up to the first space continues past it with the
flag set. -/
theorem argStartAux_to_space (a : List Char) (ha : ∀ c ∈ a, ¬ c = ' ') :
    ∀ (b : List Char) (i : Nat),
      argStartAux (a ++ ' ' :: b) false i = argStartAux b true (i + a.length + 1) := by
  induction a with
  | nil =>
    intro b i
    simp [argStartAux]
  | cons c rest ih =>
    intro b i
    have hc := ha c (List.mem_cons_self c rest)
    rw [List.cons_append, argStartAux, if_neg hc, if_neg (by simp)]
    rw [ih (fun x hx => ha x (List.mem_cons_of_mem c hx)) b (i + 1)]
    congr 1
    simp only [List.length_cons]
    omega

/-- With the flag set, the scan returns the column of the first non-space
character. -/
theorem argStartAux_after_space (d : List Char) (hd : ∀ c ∈ d, c = ' ') (ch : Char)
    (hch : ¬ ch = ' ') (e : List Char) :
    ∀ i, argStartAux (d ++ ch :: e) true i = some (i + d.length + 1) := by
  induction d with
  | nil =>
    intro i
    rw [List.nil_append, argStartAux, if_neg hch, if_pos rfl]
    simp
  | cons c rest ih =>
    intro i
    have hc := hd c (List.mem_cons_self c rest)
    rw [List.cons_append, argStartAux, if_pos hc]
    rw [ih (fun x hx => hd x (List.mem_cons_of_mem c hx)) (i + 1)]
    congr 1
    simp only [List.length_cons]
    omega

/-- Source `collectExplanations` fails exactly as soon as a retained error lacks an
explanation. -/
theorem collectExplanations_fails (l : List CompilationError)
    (h : ∃ e ∈ l, e.explanation = none) :
    collectExplanations l = .error "Sorry, last error has no explanation" := by
  induction l with
  | nil => simp at h
  | cons e rest ih =>
    rcases hx : e.explanation with _ | ex
    · rw [collectExplanations, hx]
    · rw [collectExplanations, hx]
      obtain ⟨e0, hmem, h0⟩ := h
      rcases List.mem_cons.1 hmem with rfl | hmem'
      · rw [h0] at hx; exact absurd hx (by simp)
      · rw [ih ⟨e0, hmem', h0⟩]

/-- When every retained error has an explanation, `collectExplanations`
returns their concatenation in order. -/
theorem collectExplanations_concat (l : List CompilationError)
    (h : ∀ e ∈ l, ¬ e.explanation = none) :
    collectExplanations l =
      .ok (l.foldr (fun e acc => e.explanation.getD "" ++ acc) "") := by
  induction l with
  | nil => rfl
  | cons e rest ih =>
    rcases hx : e.explanation with _ | ex
    · exact absurd hx (h e (List.mem_cons_self e rest))
    · rw [collectExplanations, hx, ih (fun x hx' => h x (List.mem_cons_of_mem e hx'))]
      simp [hx]

/-- Source `process_command` on `:opt` always succeeds, setting the level chosen by
the argument-or-toggle rule and reporting it. -/
theorem process_opt (ctx : CommandContext) (state : ContextState) (seg : Segment)
    (args : Option String) :
    process_command ctx ⟨":opt", args⟩ seg state args false =
      .ok (text_output ("Optimization: " ++
          (match args with
           | some n => n
           | none => if state.opt_level = "2" then "0" else "2")))
        ctx (state.set_opt_level
          (match args with
           | some n => n
           | none => if state.opt_level = "2" then "0" else "2")) := rfl

/-- C5: The `:opt` command with an explicit argument sets the optimization
level to that argument; with no argument it sets the level to `"0"` when the
current level is exactly `"2"` and to `"2"` otherwise, so starting from level
`"2"` two consecutive argument-less invocations return the level to `"2"`;
in each case it reports the new level. -/
theorem c5_opt_sets_and_toggles :
    ∀ (ctx : CommandContext) (state : ContextState) (seg : Segment),
      (∀ n : String,
        process_command ctx ⟨":opt", some n⟩ seg state (some n) false =
          .ok (text_output ("Optimization: " ++ n)) ctx (state.set_opt_level n)) ∧
      (state.opt_level = "2" →
        process_command ctx ⟨":opt", none⟩ seg state none false =
          .ok (text_output "Optimization: 0") ctx (state.set_opt_level "0")) ∧
      (¬ state.opt_level = "2" →
        process_command ctx ⟨":opt", none⟩ seg state none false =
          .ok (text_output "Optimization: 2") ctx (state.set_opt_level "2")) ∧
      (state.opt_level = "2" →
        ∃ out1 state1 out2 state2,
          process_command ctx ⟨":opt", none⟩ seg state none false = .ok out1 ctx state1 ∧
          process_command ctx ⟨":opt", none⟩ seg state1 none false = .ok out2 ctx state2 ∧
          state1.opt_level = "0" ∧ state2.opt_level = "2") := by
  intro ctx state seg
  refine ⟨fun n => process_opt ctx state seg (some n), fun h2 => ?_, fun h2 => ?_, fun h2 => ?_⟩
  · rw [process_opt]
    simp [if_pos h2]
  · rw [process_opt]
    simp [if_neg h2]
  · refine ⟨text_output "Optimization: 0", state.set_opt_level "0",
      text_output "Optimization: 2", (state.set_opt_level "0").set_opt_level "2", ?_, ?_, rfl, rfl⟩
    · rw [process_opt]
      simp [if_pos h2]
    · rw [process_opt]
      simp [ContextState.set_opt_level]

/-- C5 witness: the round trip evaluated from the sample state, whose level
is `"2"`. -/
theorem c5_opt_sets_and_toggles_witness :
    sample_state.opt_level = "2" ∧
    (∃ out1 state1 out2 state2,
      process_command sample_context ⟨":opt", none⟩ ⟨.command ⟨":opt", none⟩, ":opt"⟩
          sample_state none false = .ok out1 sample_context state1 ∧
      process_command sample_context ⟨":opt", none⟩ ⟨.command ⟨":opt", none⟩, ":opt"⟩
          state1 none false = .ok out2 sample_context state2 ∧
      state1.opt_level = "0" ∧ state2.opt_level = "2") :=
  ⟨rfl,
    (c5_opt_sets_and_toggles sample_context sample_state
      ⟨.command ⟨":opt", none⟩, ":opt"⟩).2.2.2 rfl⟩

/-- C7: In analysis mode, `:quit` and `:load_config` are explicit no-ops that
succeed with empty outputs: analysis-mode `:quit` never terminates the host
process (its real effect is `exit(0)`) and analysis-mode `:load_config` never
replays the configuration files (its real effect is the external replay),
because both declare a no-op analysis variant. -/
theorem c7_quit_load_config_analysis_noop :
    ∀ (ctx : CommandContext) (state : ContextState) (seg : Segment) (args : Option String),
      process_command ctx ⟨":quit", args⟩ seg state args true = .ok EvalOutputs.new ctx state ∧
      process_command ctx ⟨":load_config", args⟩ seg state args true =
        .ok EvalOutputs.new ctx state ∧
      process_command ctx ⟨":quit", args⟩ seg state args false = .exited 0 ∧
      process_command ctx ⟨":load_config", args⟩ seg state args false =
        .external "load_config" ∧
      (∃ c, commands_by_name ":quit" = some c ∧
        ∃ acb, c.analysis_callback = some acb ∧
          ∀ ctx2 state2 args2, acb ctx2 state2 args2 = .ok EvalOutputs.new ctx2 state2) ∧
      (∃ c, commands_by_name ":load_config" = some c ∧
        ∃ acb, c.analysis_callback = some acb ∧
          ∀ ctx2 state2 args2, acb ctx2 state2 args2 = .ok EvalOutputs.new ctx2 state2) := by
  intro ctx state seg args
  refine ⟨rfl, rfl, rfl, rfl,
    ⟨(AvailableCommand.new ":quit" "Quit evaluation and exit" quit_callback).disable_in_analysis,
      rfl, ?_⟩,
    ⟨(AvailableCommand.new ":load_config" "Reloads startup configuration files"
        load_config_callback).disable_in_analysis, rfl, ?_⟩⟩ <;>
    exact ⟨fun ctx2 state2 _args2 => .ok EvalOutputs.new ctx2 state2, rfl, fun _ _ _ => rfl⟩

/-- C9: The crash-guard diagnostic is never emitted on a normal return path —
the guard is disarmed before returning on both success and handled error —
and is emitted exactly when the guarded region terminates abnormally, with
the template carrying the verbatim source text, before the termination
propagates unchanged. -/
theorem c9_crash_guard_emission :
    ∀ (to_run state_repr : String),
      (∀ out ctx, execute_with_callbacks to_run state_repr (.normal (.ok out ctx)) =
        { emitted_diagnostic := none, outcome := .normal (.ok out ctx) }) ∧
      (∀ e ctx, execute_with_callbacks to_run state_repr (.normal (.error e ctx)) =
        { emitted_diagnostic := none, outcome := .normal (.error e ctx) }) ∧
      (∀ r, (execute_with_callbacks to_run state_repr (.normal r)).emitted_diagnostic = none) ∧
      execute_with_callbacks to_run state_repr .panicked =
        { emitted_diagnostic := some (crash_template to_run state_repr),
          outcome := .panicked } := by
  intro to_run state_repr
  exact ⟨fun out ctx => rfl, fun e ctx => rfl, fun r => rfl, rfl⟩

/-- C1: A Command segment whose directive name is not in the registry
produces, in real mode, exactly one CompilationError whose message contains
`Unrecognised` and the directive name, whose span covers exactly the command
token (column 1 through the token's character length plus one), and the
interaction is aborted with that error as the sole result (the engine is
never consulted: the result is the same for every engine function). -/
theorem c1_unrecognised_directive :
    ∀ (seg : Segment) (call : CommandCall),
      seg.kind = .command call →
      commands_by_name call.command = none →
      ∀ (ctx : CommandContext) (state : ContextState),
        (∀ (args : Option String) (analysis_mode : Bool),
          process_command ctx call seg state args analysis_mode =
            .error (unrecognised_error call) ctx state) ∧
        (unrecognised_error call).message = "Unrecognised command " ++ call.command ∧
        (∃ l1 l2, (unrecognised_error call).message.data =
          l1 ++ "Unrecognised".data ++ l2) ∧
        (∃ l3 l4, (unrecognised_error call).message.data =
          l3 ++ call.command.data ++ l4) ∧
        (unrecognised_error call).span = some ⟨1, call.command.toList.length + 1⟩ ∧
        (∀ outs ncc rest, commandLoop ctx state outs ncc (seg :: rest) =
          .error (unrecognised_error call) ctx) ∧
        (∀ (evalFn : EvalFn) (duration : Nat) (nodes : List String) (rest : List Segment),
          execute_with_callbacks_internal evalFn duration nodes ctx (seg :: rest) =
            .error (.compilationErrors [unrecognised_error call]) ctx) := by
  intro seg call hk hnone ctx state
  have hpc : ∀ (s : ContextState) (args : Option String) (analysis_mode : Bool),
      process_command ctx call seg s args analysis_mode =
        .error (unrecognised_error call) ctx s := by
    intro s args analysis_mode
    simp [process_command, hnone, unrecognised_error]
  have hdata : (unrecognised_error call).message.data =
      "Unrecognised command ".data ++ call.command.data := String.data_append _ _
  have hsplit : ("Unrecognised command " : String).data =
      ("Unrecognised" : String).data ++ (" command " : String).data := by decide
  have hloop : ∀ (s : ContextState) (outs : EvalOutputs) (ncc : CodeBlock)
      (rest : List Segment), commandLoop ctx s outs ncc (seg :: rest) =
        .error (unrecognised_error call) ctx := by
    intro s outs ncc rest
    simp only [commandLoop, hk, hpc s call.args false]
  refine ⟨hpc state, rfl, ?_, ?_, rfl, hloop state, ?_⟩
  · exact ⟨[], (" command " : String).data ++ call.command.data,
      by rw [hdata, hsplit]; simp⟩
  · exact ⟨("Unrecognised command " : String).data, [], by rw [hdata]; simp⟩
  · intro evalFn duration nodes rest
    exact commandLoop_error_internal evalFn duration nodes ctx (seg :: rest)
      (unrecognised_error call) ctx (hloop ctx.engine_state EvalOutputs.new CodeBlock.new rest)

/-- C1 witness: the input `":nosuch"`. -/
theorem c1_unrecognised_directive_witness :
    (Segment.mk (.command ⟨":nosuch", none⟩) ":nosuch").kind = .command ⟨":nosuch", none⟩ ∧
    commands_by_name ":nosuch" = none ∧
    ((∀ (args : Option String) (analysis_mode : Bool),
      process_command sample_context ⟨":nosuch", none⟩
          ⟨.command ⟨":nosuch", none⟩, ":nosuch"⟩ sample_state args analysis_mode =
        .error (unrecognised_error ⟨":nosuch", none⟩) sample_context sample_state) ∧
     (unrecognised_error ⟨":nosuch", none⟩).message = "Unrecognised command " ++ ":nosuch" ∧
     (∃ l1 l2, (unrecognised_error ⟨":nosuch", none⟩).message.data =
       l1 ++ "Unrecognised".data ++ l2) ∧
     (∃ l3 l4, (unrecognised_error ⟨":nosuch", none⟩).message.data =
       l3 ++ (":nosuch" : String).data ++ l4) ∧
     (unrecognised_error ⟨":nosuch", none⟩).span =
       some ⟨1, (":nosuch" : String).toList.length + 1⟩ ∧
     (∀ outs ncc rest, commandLoop sample_context sample_state outs ncc
         (⟨.command ⟨":nosuch", none⟩, ":nosuch"⟩ :: rest) =
       .error (unrecognised_error ⟨":nosuch", none⟩) sample_context) ∧
     (∀ (evalFn : EvalFn) (duration : Nat) (nodes : List String) (rest : List Segment),
       execute_with_callbacks_internal evalFn duration nodes sample_context
           (⟨.command ⟨":nosuch", none⟩, ":nosuch"⟩ :: rest) =
         .error (.compilationErrors [unrecognised_error ⟨":nosuch", none⟩]) sample_context)) :=
  ⟨rfl, rfl,
    c1_unrecognised_directive ⟨.command ⟨":nosuch", none⟩, ":nosuch"⟩ ⟨":nosuch", none⟩
      rfl rfl sample_context sample_state⟩

/-- C2: When a registered directive's effect returns an error, the produced
CompilationError's span starts at the 1-based character position of the first
non-space character that follows the first space of the segment's text (or
column 1 when the segment contains no space), and ends at the segment's
character count — both counted in characters of the segment text, not
bytes. -/
theorem c2_directive_error_span :
    ∀ (ctx : CommandContext) (call : CommandCall) (seg : Segment) (state : ContextState)
      (args : Option String) (cmd : AvailableCommand) (msg : String)
      (ctx' : CommandContext) (state' : ContextState),
      commands_by_name call.command = some cmd →
      cmd.callback ctx state args = .err msg ctx' state' →
      process_command ctx call seg state args false =
        .error (CompilationError.from_segment_span msg
          ⟨start_column seg.code, end_column seg.code⟩) ctx' state' ∧
      end_column seg.code = seg.code.toList.length ∧
      (∀ (a d e : List Char) (ch : Char),
        seg.code.toList = a ++ ' ' :: (d ++ ch :: e) →
        (∀ c ∈ a, ¬ c = ' ') → (∀ c ∈ d, c = ' ') → ¬ ch = ' ' →
        start_column seg.code = a.length + d.length + 2) ∧
      ((∀ c ∈ seg.code.toList, ¬ c = ' ') → start_column seg.code = 1) := by
  intro ctx call seg state args cmd msg ctx' state' hcmd hr
  refine ⟨?_, rfl, ?_, ?_⟩
  · rcases hA : cmd.analysis_callback with _ | acb <;>
      simp [process_command, hcmd, hA, hr, wrapped_error, Span.from_command]
  · intro a d e ch hdecomp ha hd hch
    rw [start_column, hdecomp, argStartAux_to_space a ha, argStartAux_after_space d hd ch hch e]
    simp only [Option.getD_some]
    omega
  · intro h
    rw [start_column, argStartAux_no_space seg.code.toList h 0]
    rfl

/-- C2 witness: `:dep` with no argument errs; the segment `":dep"` has no
space, so the span is columns 1 through 4. -/
theorem c2_directive_error_span_witness :
    commands_by_name ":dep" =
      some (AvailableCommand.new ":dep" "Add dependency. e.g. :dep regex = \"1.0\"" dep_callback) ∧
    dep_callback sample_context sample_state none =
      .err ":dep requires arguments" sample_context sample_state ∧
    (process_command sample_context ⟨":dep", none⟩ ⟨.command ⟨":dep", none⟩, ":dep"⟩
        sample_state none false =
      .error (CompilationError.from_segment_span ":dep requires arguments"
        ⟨start_column ":dep", end_column ":dep"⟩) sample_context sample_state ∧
     end_column (":dep" : String) = (":dep" : String).toList.length ∧
     (∀ (a d e : List Char) (ch : Char),
       (":dep" : String).toList = a ++ ' ' :: (d ++ ch :: e) →
       (∀ c ∈ a, ¬ c = ' ') → (∀ c ∈ d, c = ' ') → ¬ ch = ' ' →
       start_column ":dep" = a.length + d.length + 2) ∧
     ((∀ c ∈ (":dep" : String).toList, ¬ c = ' ') → start_column ":dep" = 1)) :=
  ⟨rfl, rfl,
    c2_directive_error_span sample_context ⟨":dep", none⟩ ⟨.command ⟨":dep", none⟩, ":dep"⟩
      sample_state none
      (AvailableCommand.new ":dep" "Add dependency. e.g. :dep regex = \"1.0\"" dep_callback)
      ":dep requires arguments" sample_context sample_state rfl rfl⟩

/-- C8: `:explain` fails with `No last error to explain` when the retained
error set is empty, fails with the no-explanation message when any retained
error lacks an explanation, and otherwise succeeds with the concatenated
explanation text of every retained error (the callback is a total function,
so it never panics). -/
theorem c8_explain_behavior :
    commands_by_name ":explain" =
      some (AvailableCommand.new ":explain" "Print explanation of last error"
        explain_callback) ∧
    ∀ (ctx : CommandContext) (state : ContextState) (args : Option String),
      (ctx.last_errors = [] →
        explain_callback ctx state args = .err "No last error to explain" ctx state) ∧
      (¬ ctx.last_errors = [] → (∃ e ∈ ctx.last_errors, e.explanation = none) →
        explain_callback ctx state args =
          .err "Sorry, last error has no explanation" ctx state) ∧
      (¬ ctx.last_errors = [] → (∀ e ∈ ctx.last_errors, ¬ e.explanation = none) →
        explain_callback ctx state args =
          .ok (text_output
            (ctx.last_errors.foldr (fun e acc => e.explanation.getD "" ++ acc) "")) ctx state) := by
  refine ⟨rfl, ?_⟩
  intro ctx state args
  refine ⟨?_, ?_, ?_⟩
  · intro h
    simp [explain_callback, h]
  · intro hne hex
    have hempty : ctx.last_errors.isEmpty = false := by
      rcases hl : ctx.last_errors with _ | ⟨a, l⟩
      · exact absurd hl hne
      · rfl
    simp [explain_callback, hempty, collectExplanations_fails ctx.last_errors hex]
  · intro hne hall
    have hempty : ctx.last_errors.isEmpty = false := by
      rcases hl : ctx.last_errors with _ | ⟨a, l⟩
      · exact absurd hl hne
      · rfl
    simp [explain_callback, hempty, collectExplanations_concat ctx.last_errors hall]

/-- C8 witness: one retained error with explanation `E0308` is rendered; the
other two branches are exercised on the empty set and on a bare error. -/
theorem c8_explain_behavior_witness :
    ({ sample_context with last_errors := [sample_error_explained] } :
        CommandContext).last_errors ≠ [] ∧
    (∀ e ∈ ({ sample_context with last_errors := [sample_error_explained] } :
        CommandContext).last_errors, ¬ e.explanation = none) ∧
    explain_callback { sample_context with last_errors := [sample_error_explained] }
        sample_state none =
      .ok (text_output
        (({ sample_context with last_errors := [sample_error_explained] } :
          CommandContext).last_errors.foldr (fun e acc => e.explanation.getD "" ++ acc) ""))
        { sample_context with last_errors := [sample_error_explained] } sample_state :=
  ⟨by decide, by decide,
    ((c8_explain_behavior.2 { sample_context with last_errors := [sample_error_explained] }
      sample_state none).2.2 (by decide) (by decide))⟩

/-- C10: In real mode the first failing directive ends the interaction at its
segment: the loop aborts with the wrapped error whatever segments follow, the
engine is never invoked (the top-level result is the same for every engine
function), directive outputs accumulated so far are discarded (the error is
returned as the sole `CompilationErrors` payload), and the retained error set
is left unchanged. -/
theorem c10_first_failing_directive_aborts :
    ∀ (seg : Segment) (call : CommandCall) (cmd : AvailableCommand) (ctx : CommandContext)
      (state : ContextState) (msg : String) (ctx' : CommandContext) (state' : ContextState),
      seg.kind = .command call →
      commands_by_name call.command = some cmd →
      cmd.callback ctx state call.args = .err msg ctx' state' →
      process_command ctx call seg state call.args false =
        .error (wrapped_error call seg msg) ctx' state' ∧
      (∀ outs ncc rest, commandLoop ctx state outs ncc (seg :: rest) =
        .error (wrapped_error call seg msg) ctx') ∧
      (∀ (evalFn : EvalFn) (duration : Nat) (nodes : List String) (ctx0 : CommandContext)
        (segs : List Segment) (e : CompilationError) (ctx1 : CommandContext),
        commandLoop ctx0 ctx0.engine_state EvalOutputs.new CodeBlock.new segs =
          .error e ctx1 →
        execute_with_callbacks_internal evalFn duration nodes ctx0 segs =
          .error (.compilationErrors [e]) ctx1 ∧
        ctx1.last_errors = ctx0.last_errors) := by
  intro seg call cmd ctx state msg ctx' state' hk hcmd hr
  have hpc : process_command ctx call seg state call.args false =
      .error (wrapped_error call seg msg) ctx' state' := by
    rcases hA : cmd.analysis_callback with _ | acb <;>
      simp [process_command, hcmd, hA, hr]
  refine ⟨hpc, ?_, ?_⟩
  · intro outs ncc rest
    simp only [commandLoop, hk, hpc]
  · intro evalFn duration nodes ctx0 segs e ctx1 hloop
    exact ⟨commandLoop_error_internal evalFn duration nodes ctx0 segs e ctx1 hloop,
      (commandLoop_preserves segs ctx0 ctx0.engine_state EvalOutputs.new CodeBlock.new).2
        e ctx1 hloop⟩

/-- C10 witness: `:last_error_json` always fails; with no retained errors its
message is empty, and the interaction built from it aborts. -/
theorem c10_first_failing_directive_aborts_witness :
    (Segment.mk (.command ⟨":last_error_json", none⟩) ":last_error_json").kind =
      .command ⟨":last_error_json", none⟩ ∧
    commands_by_name ":last_error_json" =
      some (AvailableCommand.new ":last_error_json"
        "Print the last compilation error as JSON (for debugging)" last_error_json_callback) ∧
    last_error_json_callback sample_context sample_state none =
      .err "" sample_context sample_state ∧
    (process_command sample_context ⟨":last_error_json", none⟩
        ⟨.command ⟨":last_error_json", none⟩, ":last_error_json"⟩ sample_state none false =
      .error (wrapped_error ⟨":last_error_json", none⟩
        ⟨.command ⟨":last_error_json", none⟩, ":last_error_json"⟩ "")
        sample_context sample_state ∧
     (∀ outs ncc rest,
       commandLoop sample_context sample_state outs ncc
           (⟨.command ⟨":last_error_json", none⟩, ":last_error_json"⟩ :: rest) =
         .error (wrapped_error ⟨":last_error_json", none⟩
           ⟨.command ⟨":last_error_json", none⟩, ":last_error_json"⟩ "") sample_context) ∧
     (∀ (evalFn : EvalFn) (duration : Nat) (nodes : List String) (ctx0 : CommandContext)
       (segs : List Segment) (e : CompilationError) (ctx1 : CommandContext),
       commandLoop ctx0 ctx0.engine_state EvalOutputs.new CodeBlock.new segs =
         .error e ctx1 →
       execute_with_callbacks_internal evalFn duration nodes ctx0 segs =
         .error (.compilationErrors [e]) ctx1 ∧
       ctx1.last_errors = ctx0.last_errors)) :=
  ⟨rfl, rfl, rfl,
    c10_first_failing_directive_aborts
      ⟨.command ⟨":last_error_json", none⟩, ":last_error_json"⟩ ⟨":last_error_json", none⟩
      (AvailableCommand.new ":last_error_json"
        "Print the last compilation error as JSON (for debugging)" last_error_json_callback)
      sample_context sample_state "" sample_context sample_state rfl rfl rfl⟩

/-- C4: The retained error set is replaced wholesale by the new diagnostics
on every engine compilation failure during real-mode execution, and is left
unchanged by every successful interaction — a success never clears previously
retained errors. -/
theorem c4_retained_error_set :
    ∀ (evalFn : EvalFn) (duration : Nat) (nodes : List String) (ctx : CommandContext)
      (segs : List Segment) (ctx' : CommandContext) (state' : ContextState)
      (outs : EvalOutputs) (ncc : CodeBlock),
      commandLoop ctx ctx.engine_state EvalOutputs.new CodeBlock.new segs =
        .done ctx' state' outs ncc →
      (∀ es, evalFn ncc state' nodes = .error (.compilationErrors es) →
        execute_with_callbacks_internal evalFn duration nodes ctx segs =
          .error (.compilationErrors es) { ctx' with last_errors := es }) ∧
      (∀ m, evalFn ncc state' nodes = .ok m →
        execute_with_callbacks_internal evalFn duration nodes ctx segs =
          .ok (if ctx'.print_timings then { outs.merge m with timing := some duration }
               else outs.merge m) ctx' ∧
        ctx'.last_errors = ctx.last_errors) := by
  intro evalFn duration nodes ctx segs ctx' state' outs ncc hloop
  refine ⟨?_, ?_⟩
  · intro es hev
    simp only [execute_with_callbacks_internal, hloop, hev]
  · intro m hev
    refine ⟨?_, ?_⟩
    · simp only [execute_with_callbacks_internal, hloop, hev]
    · exact (commandLoop_preserves segs ctx ctx.engine_state EvalOutputs.new CodeBlock.new).1
        ctx' state' outs ncc hloop

/-- C4 witness: starting from a dispatcher retaining one bare error, an
engine failure replaces the set wholesale, while an engine success leaves it
untouched. -/
theorem c4_retained_error_set_witness :
    commandLoop { sample_context with last_errors := [sample_error_bare] }
        ({ sample_context with last_errors := [sample_error_bare] } :
          CommandContext).engine_state EvalOutputs.new CodeBlock.new [] =
      .done { sample_context with last_errors := [sample_error_bare] }
        sample_state EvalOutputs.new CodeBlock.new ∧
    execute_with_callbacks_internal
        (fun _ _ _ => .error (.compilationErrors [sample_error_explained])) 0 []
        { sample_context with last_errors := [sample_error_bare] } [] =
      .error (.compilationErrors [sample_error_explained])
        { sample_context with last_errors := [sample_error_explained] } :=
  ⟨rfl,
    (c4_retained_error_set (fun _ _ _ => .error (.compilationErrors [sample_error_explained]))
      0 [] { sample_context with last_errors := [sample_error_bare] } []
      { sample_context with last_errors := [sample_error_bare] } sample_state
      EvalOutputs.new CodeBlock.new rfl).1 [sample_error_explained] rfl⟩

/-- C3: In analysis mode directive errors are collected, not
short-circuited — a failing directive's error is appended and the loop
continues with the remaining segments — and when at least one directive
erred the accumulated code is not forwarded to the engine's check entry
point (the result is the collected errors, identical for every check
function); when no directive erred, check is invoked on the accumulated
code, mutated state and node list. -/
theorem c3_analysis_error_collection :
    (∀ (ctx : CommandContext) (state : ContextState) (errs : List CompilationError)
      (ncc : CodeBlock) (seg : Segment) (call : CommandCall) (rest : List Segment)
      (e : CompilationError) (ctx' : CommandContext) (state' : ContextState),
      seg.kind = .command call →
      process_command ctx call seg state call.args true = .error e ctx' state' →
      analysisLoop ctx state errs ncc (seg :: rest) =
        analysisLoop ctx' state' (errs ++ [e]) ncc rest) ∧
    (∀ (wct : WriteCargoToml) (f g : CheckFn) (nodes : List String) (ctx : CommandContext)
      (segs : List Segment) (ncc : CodeBlock) (st : ContextState)
      (es : List CompilationError) (ctx' : CommandContext),
      prepare_for_analysis wct ctx segs = .ok ncc st es ctx' →
      (¬ es = [] →
        check wct f nodes ctx segs = .ok es ∧
        check wct f nodes ctx segs = check wct g nodes ctx segs) ∧
      (es = [] →
        (∀ engine_errors, f ncc st nodes = .ok engine_errors →
          check wct f nodes ctx segs = .ok engine_errors) ∧
        (∀ e2, f ncc st nodes = .error e2 → check wct f nodes ctx segs = .error e2))) := by
  refine ⟨?_, ?_⟩
  · intro ctx state errs ncc seg call rest e ctx' state' hk hpc
    simp only [analysisLoop, hk, hpc]
  · intro wct f g nodes ctx segs ncc st es ctx' hprep
    have hempty_of : ¬ es = [] → es.isEmpty = false := by
      intro hne
      rcases hl : es with _ | ⟨a, l⟩
      · exact absurd hl hne
      · rfl
    refine ⟨?_, ?_⟩
    · intro hne
      have hesF := hempty_of hne
      constructor
      · simp [check, hprep, hesF]
      · simp [check, hprep, hesF]
    · intro hee
      subst hee
      refine ⟨?_, ?_⟩
      · intro engine_errors hf
        simp [check, hprep, hf]
      · intro e2 hf
        simp [check, hprep, hf]

/-- C3 witness: two unknown directives are both attempted — their two errors
are collected in order — and the collected errors are returned by `check`
without consulting any engine check function. -/
theorem c3_analysis_error_collection_witness :
    (Segment.mk (.command ⟨":nosuch", none⟩) ":nosuch").kind = .command ⟨":nosuch", none⟩ ∧
    process_command sample_context ⟨":nosuch", none⟩
        ⟨.command ⟨":nosuch", none⟩, ":nosuch"⟩ sample_state none true =
      .error (unrecognised_error ⟨":nosuch", none⟩) sample_context sample_state ∧
    analysisLoop sample_context sample_state [] CodeBlock.new
        [⟨.command ⟨":nosuch", none⟩, ":nosuch"⟩, ⟨.command ⟨":alsobad", none⟩, ":alsobad"⟩] =
      analysisLoop sample_context sample_state [unrecognised_error ⟨":nosuch", none⟩]
        CodeBlock.new [⟨.command ⟨":alsobad", none⟩, ":alsobad"⟩] ∧
    prepare_for_analysis (fun _ => .ok ()) sample_context
        [⟨.command ⟨":nosuch", none⟩, ":nosuch"⟩, ⟨.command ⟨":alsobad", none⟩, ":alsobad"⟩] =
      .ok CodeBlock.new sample_state
        [unrecognised_error ⟨":nosuch", none⟩, unrecognised_error ⟨":alsobad", none⟩]
        sample_context ∧
    check (fun _ => .ok ()) (fun _ _ _ => .ok []) [] sample_context
        [⟨.command ⟨":nosuch", none⟩, ":nosuch"⟩, ⟨.command ⟨":alsobad", none⟩, ":alsobad"⟩] =
      .ok [unrecognised_error ⟨":nosuch", none⟩, unrecognised_error ⟨":alsobad", none⟩] ∧
    check (fun _ => .ok ()) (fun _ _ _ => .ok []) [] sample_context
        [⟨.command ⟨":nosuch", none⟩, ":nosuch"⟩, ⟨.command ⟨":alsobad", none⟩, ":alsobad"⟩] =
      check (fun _ => .ok ())
        (fun _ _ _ => .error (.message "engine must not run")) [] sample_context
        [⟨.command ⟨":nosuch", none⟩, ":nosuch"⟩, ⟨.command ⟨":alsobad", none⟩, ":alsobad"⟩] :=
  ⟨rfl, rfl,
    c3_analysis_error_collection.1 sample_context sample_state [] CodeBlock.new
      ⟨.command ⟨":nosuch", none⟩, ":nosuch"⟩ ⟨":nosuch", none⟩
      [⟨.command ⟨":alsobad", none⟩, ":alsobad"⟩]
      (unrecognised_error ⟨":nosuch", none⟩) sample_context sample_state rfl rfl,
    rfl,
    ((c3_analysis_error_collection.2 (fun _ => .ok ()) (fun _ _ _ => .ok [])
      (fun _ _ _ => .error (.message "engine must not run")) [] sample_context
      [⟨.command ⟨":nosuch", none⟩, ":nosuch"⟩, ⟨.command ⟨":alsobad", none⟩, ":alsobad"⟩]
      CodeBlock.new sample_state
      [unrecognised_error ⟨":nosuch", none⟩, unrecognised_error ⟨":alsobad", none⟩]
      sample_context rfl).1 (by decide)).1,
    ((c3_analysis_error_collection.2 (fun _ => .ok ()) (fun _ _ _ => .ok [])
      (fun _ _ _ => .error (.message "engine must not run")) [] sample_context
      [⟨.command ⟨":nosuch", none⟩, ":nosuch"⟩, ⟨.command ⟨":alsobad", none⟩, ":alsobad"⟩]
      CodeBlock.new sample_state
      [unrecognised_error ⟨":nosuch", none⟩, unrecognised_error ⟨":alsobad", none⟩]
      sample_context rfl).1 (by decide)).2⟩

/-- C6 counterexample: for the argument `"a = b "` the source's `:dep`
grammar keeps the requirement's trailing space (`"b "`), while the claimed
split-at-`=`-and-trim-both-sides parse yields `"b"`. -/
theorem c6_dep_trim_counterexample :
    dep_parse "a = b " = some ("a", "b ") ∧
    dep_parse_spec "a = b " = some ("a", "b") ∧
    ¬ (("b " : String) = "b") ∧
    ¬ dep_parse "a = b " = dep_parse_spec "a = b " := by
  refine ⟨by decide, by decide, by decide, by decide⟩

/-- C6 (amended): `:dep` parses a name of characters other than space and
`=`, trims the spaces around a following `=`, keeps the requirement's
trailing spaces, defaults the requirement to the quoted wildcard when no `=`
part is present, registers the resulting dependency, and fails when the
argument is absent, empty, or malformed; `:dep foo = "1.0"` parses to name
`foo` and requirement `"1.0"`, and `:dep foo` to name `foo` with the quoted
wildcard. -/
theorem c6_dep_parse_and_register :
    (∀ state : ContextState, process_dep_command state none =
      .error ":dep requires arguments") ∧
    (∀ state : ContextState, process_dep_command state (some "") =
      .error "Invalid :dep command. Expected: name = ... or just name") ∧
    dep_parse "foo = \"1.0\"" = some ("foo", "\"1.0\"") ∧
    dep_parse "foo" = some ("foo", "\"*\"") ∧
    dep_parse "a = b " = some ("a", "b ") ∧
    dep_parse "a b" = none ∧
    (∀ (state : ContextState) (v name req : String),
      dep_parse v = some (name, req) →
      process_dep_command state (some v) = .ok (EvalOutputs.new, state.add_dep name req)) ∧
    (∀ (state : ContextState) (v : String),
      dep_parse v = none →
      process_dep_command state (some v) =
        .error "Invalid :dep command. Expected: name = ... or just name") := by
  refine ⟨fun state => rfl, fun state => rfl, by decide, by decide, by decide, by decide,
    ?_, ?_⟩
  · intro state v name req h
    simp [process_dep_command, h]
  · intro state v h
    simp [process_dep_command, h]

/-- C6 witness: `:dep foo = "1.0"` registers the dependency
`(foo, "1.0")`. -/
theorem c6_dep_parse_and_register_witness :
    dep_parse "foo = \"1.0\"" = some ("foo", "\"1.0\"") ∧
    process_dep_command sample_state (some "foo = \"1.0\"") =
      .ok (EvalOutputs.new, sample_state.add_dep "foo" "\"1.0\"") :=
  ⟨by decide,
    c6_dep_parse_and_register.2.2.2.2.2.2.1 sample_state "foo = \"1.0\"" "foo" "\"1.0\""
      (by decide)⟩

end Evcxr
